import Mathlib

/-!
Shallow embedding of the Tokan mutation-observer façade (src/tokan.ts).

The `Tokan` class wraps the DOM `MutationObserver` API: a registry of watcher
descriptors over one target node, lifecycle control (`watch` / `unwatch` /
`start` / `stop`), listener registration (`on`) and a routing callback
(`observerRouter`) that classifies raw mutation records and fans them out to
per-event listener lists, applying the watcher's predicate filters.

DOM nodes are modelled as natural numbers; listener callbacks are modelled by
identifiers, and the dispatcher is modelled as returning the list of listener
invocations it performs, in order.  A `MutationObserver` instance is modelled
by the configuration it is currently observing with (`none` when
disconnected); the single target node is implicit.
-/

namespace Tokan

/-- A DOM node, abstractly. -/
abbrev Node := Nat

/-- `TokanMutationFilterCallback`: a predicate on nodes. -/
abbrev NodeFilter := Node → Bool

/-- `TokanMutationFilter`: either an attribute-name string or a predicate. -/
inductive TokanMutationFilter where
  | str : String → TokanMutationFilter
  | cb : NodeFilter → TokanMutationFilter

/-- `TokanMutationKindOptions`: the options bag accepted by `watch`. -/
structure TokanMutationKindOptions where
  oldValue : Option Bool
  subtree : Option Bool
  filters : Option (List TokanMutationFilter)

/-- `MutationObserverInit`: the platform subscription configuration, with the
fields the source ever sets.  A missing (undefined) field is `none`. -/
structure MutationObserverInit where
  attributes : Option Bool
  attributeOldValue : Option Bool
  attributeFilter : Option (List String)
  characterData : Option Bool
  characterDataOldValue : Option Bool
  childList : Option Bool
  subtree : Option Bool
deriving DecidableEq

/-- The empty object literal used to initialise `descriptor.config`. -/
def emptyConfig : MutationObserverInit :=
  { attributes := none, attributeOldValue := none, attributeFilter := none,
    characterData := none, characterDataOldValue := none, childList := none,
    subtree := none }

/-- `TokanObserverDescriptor`: one registered watcher.  `observing` models the
state of the wrapped `MutationObserver` instance: the configuration it is
currently bound to the target with, or `none` when disconnected. -/
structure TokanObserverDescriptor where
  id : Nat
  observing : Option MutationObserverInit
  config : MutationObserverInit
  filters : List NodeFilter
  started : Bool

/-- The per-event listener table (`this.listeners`); callbacks are modelled by
numeric identifiers. -/
structure Listeners where
  added : List Nat
  attributeChanged : List Nat
  characterDataChanged : List Nat
  removed : List Nat
deriving DecidableEq

/-- The mutable state of one `Tokan` instance (the target node is implicit:
all subscriptions bind to the one target fixed at construction). -/
structure TokanState where
  observerId : Nat
  observers : List TokanObserverDescriptor
  listeners : Listeners

/-- The state right after the constructor ran. -/
def TokanInit : TokanState :=
  { observerId := 0, observers := [],
    listeners := { added := [], attributeChanged := [],
                   characterDataChanged := [], removed := [] } }

/-- `TokanMutationKinds.Attr` -/
def kindAttr : String := "attributes"

/-- `TokanMutationKinds.CharData` -/
def kindCharData : String := "characterData"

/-- `TokanMutationKinds.Nodes` -/
def kindNodes : String := "nodes"

/-- The string-valued entries of a filter list
(`filters.filter((f) => typeof f === "string")`). -/
def filterStrings : List TokanMutationFilter → List String
  | [] => []
  | .str s :: rest => s :: filterStrings rest
  | .cb _ :: rest => filterStrings rest

/-- The callback-valued entries of a filter list
(`filters.filter((f) => typeof f !== "string")`). -/
def filterCallbacks : List TokanMutationFilter → List NodeFilter
  | [] => []
  | .str _ :: rest => filterCallbacks rest
  | .cb f :: rest => f :: filterCallbacks rest

/-- `options?.filters` (optional chaining: `none` when `options` is absent). -/
def optFilters (options : Option TokanMutationKindOptions) :
    Option (List TokanMutationFilter) :=
  options.bind TokanMutationKindOptions.filters

/-- `Tokan.watch`: allocates the next id (`this.observerId++`), builds the
kind-specific configuration, registers the descriptor and returns the id; for
an unrecognised kind it rolls the counter back (`this.observerId--`) and
throws. -/
def watch (mutationKind : String) (options : Option TokanMutationKindOptions)
    (s : TokanState) : Except String Nat × TokanState :=
  let oid := s.observerId + 1
  let descriptor : TokanObserverDescriptor :=
    { id := oid, observing := none, config := emptyConfig,
      filters := ((optFilters options).map filterCallbacks).getD [],
      started := false }
  if mutationKind = kindAttr then
    let d := { descriptor with config :=
      { emptyConfig with
          attributes := some true,
          attributeOldValue := options.bind TokanMutationKindOptions.oldValue,
          attributeFilter := (optFilters options).map filterStrings,
          subtree := options.bind TokanMutationKindOptions.subtree } }
    (Except.ok oid, { s with observerId := oid, observers := s.observers ++ [d] })
  else if mutationKind = kindCharData then
    let d := { descriptor with config :=
      { emptyConfig with
          characterData := some true,
          characterDataOldValue := options.bind TokanMutationKindOptions.oldValue,
          subtree := options.bind TokanMutationKindOptions.subtree } }
    (Except.ok oid, { s with observerId := oid, observers := s.observers ++ [d] })
  else if mutationKind = kindNodes then
    let d := { descriptor with config :=
      { emptyConfig with
          childList := some true,
          subtree := options.bind TokanMutationKindOptions.subtree } }
    (Except.ok oid, { s with observerId := oid, observers := s.observers ++ [d] })
  else
    (Except.error ("Expected a TokanMutationKind value but got " ++ mutationKind),
      { s with observerId := oid - 1 })

/-- JavaScript truthiness of the optional numeric `id` argument: both an
absent argument and `0` are falsy. -/
def truthy : Option Nat → Bool
  | none => false
  | some i => i != 0

/-- `observer.instance.disconnect()` on a descriptor's wrapped instance. -/
def disconnectD (o : TokanObserverDescriptor) : TokanObserverDescriptor :=
  { o with observing := none }

/-- `observer.instance.observe(this.target, observer.config)` plus
`observer.started = true`. -/
def startD (o : TokanObserverDescriptor) : TokanObserverDescriptor :=
  { o with observing := some o.config, started := true }

/-- Disconnect plus `observer.started = false`. -/
def stopD (o : TokanObserverDescriptor) : TokanObserverDescriptor :=
  { o with observing := none, started := false }

/-- The loop of `unwatch` when an id is given.  Both branches of the loop body
return, so only the first descriptor is ever examined; when the set is empty
the loop falls through to `return false`. -/
def unwatchIdLoop (i : Nat) :
    List TokanObserverDescriptor → Bool × List TokanObserverDescriptor
  | [] => (false, [])
  | o :: rest =>
    if o.id == i && !o.started then (true, rest)
    else (false, o :: rest)

/-- The loop of `unwatch` when no id is given: each unstarted descriptor is
disconnected in place; hitting a started one returns `false` immediately,
leaving the registry membership as it was; when the loop completes, the
registry is cleared and `true` returned.  `done` accumulates the already
iterated (mutated-in-place) prefix. -/
def unwatchAllLoop (done : List TokanObserverDescriptor) :
    List TokanObserverDescriptor → Bool × List TokanObserverDescriptor
  | [] => (true, [])
  | o :: rest =>
    if o.started then (false, done ++ o :: rest)
    else unwatchAllLoop (done ++ [disconnectD o]) rest

/-- `Tokan.unwatch`. -/
def unwatch (id : Option Nat) (s : TokanState) : Bool × TokanState :=
  if truthy id then
    let r := unwatchIdLoop (id.getD 0) s.observers
    (r.1, { s with observers := r.2 })
  else
    let r := unwatchAllLoop [] s.observers
    (r.1, { s with observers := r.2 })

/-- The loop of `start` when an id is given: it keeps going only while the
current descriptor matches the id and is unstarted, and `break`s at the first
descriptor that does not. -/
def startIdLoop (i : Nat) :
    List TokanObserverDescriptor → List TokanObserverDescriptor
  | [] => []
  | o :: rest =>
    if o.id == i && !o.started then startD o :: startIdLoop i rest
    else o :: rest

/-- The loop of `start` when no id is given: every unstarted descriptor is
activated. -/
def startAllLoop :
    List TokanObserverDescriptor → List TokanObserverDescriptor
  | [] => []
  | o :: rest => (if !o.started then startD o else o) :: startAllLoop rest

/-- `Tokan.start`. -/
def start (id : Option Nat) (s : TokanState) : TokanState :=
  if truthy id then { s with observers := startIdLoop (id.getD 0) s.observers }
  else { s with observers := startAllLoop s.observers }

/-- The loop of `stop` when an id is given; same early-`break` shape as
`startIdLoop`, with the started/unstarted test flipped. -/
def stopIdLoop (i : Nat) :
    List TokanObserverDescriptor → List TokanObserverDescriptor
  | [] => []
  | o :: rest =>
    if o.id == i && o.started then stopD o :: stopIdLoop i rest
    else o :: rest

/-- The loop of `stop` when no id is given: every started descriptor is
deactivated. -/
def stopAllLoop :
    List TokanObserverDescriptor → List TokanObserverDescriptor
  | [] => []
  | o :: rest => (if o.started then stopD o else o) :: stopAllLoop rest

/-- `Tokan.stop`. -/
def stop (id : Option Nat) (s : TokanState) : TokanState :=
  if truthy id then { s with observers := stopIdLoop (id.getD 0) s.observers }
  else { s with observers := stopAllLoop s.observers }

/-- The event-name constants of `TokanMutationEvents`. -/
def eventAdded : String := "added"

/-- `TokanMutationEvents.AttrChanged` -/
def eventAttrChanged : String := "attributeChanged"

/-- `TokanMutationEvents.CharDataChanged` -/
def eventCharDataChanged : String := "characterDataChanged"

/-- `TokanMutationEvents.Removed` -/
def eventRemoved : String := "removed"

/-- `Tokan.on`: appends the callback to the chosen event's listener list, or
throws for an unrecognised event name. -/
def onEvent (event : String) (callback : Nat) (s : TokanState) :
    Except String TokanState :=
  if event = eventAdded then
    Except.ok { s with listeners :=
      { s.listeners with added := s.listeners.added ++ [callback] } }
  else if event = eventAttrChanged then
    Except.ok { s with listeners :=
      { s.listeners with attributeChanged :=
          s.listeners.attributeChanged ++ [callback] } }
  else if event = eventCharDataChanged then
    Except.ok { s with listeners :=
      { s.listeners with characterDataChanged :=
          s.listeners.characterDataChanged ++ [callback] } }
  else if event = eventRemoved then
    Except.ok { s with listeners :=
      { s.listeners with removed := s.listeners.removed ++ [callback] } }
  else
    Except.error ("Expected a TokanMutationEvent but got " ++ event ++ ".")

/-! The mutation-routing engine (`Tokan.observerRouter`, lines 211-297). -/

/-- The discriminant (`MutationRecord.type`) of a raw record. -/
inductive MutationType where
  | attributes
  | characterData
  | childList
deriving DecidableEq

/-- A raw `MutationRecord` as consumed by the router. -/
structure MutationRecord where
  type : MutationType
  target : Node
  attributeName : Option String
  oldValue : Option String
  addedNodes : List Node
  removedNodes : List Node
deriving DecidableEq

/-- The four semantic event types. -/
inductive TokanMutationEvent where
  | added
  | attributeChanged
  | characterDataChanged
  | removed
deriving DecidableEq

/-- The data object passed to a listener alongside the node (absent for
`added` / `removed` invocations). -/
inductive EventData where
  | attr : Option String → Option String → EventData
  | charData : Option String → EventData
deriving DecidableEq

/-- One observed listener invocation performed by the router: which event
list the listener came from, the listener's identifier, the node argument,
and the optional data argument. -/
structure Invocation where
  event : TokanMutationEvent
  listener : Nat
  node : Node
  data : Option EventData
deriving DecidableEq

/-- The `filters?.size` truthiness test: `filters` may be `undefined` when no
registered descriptor wraps the originating observer. -/
def filtersNonempty : Option (List NodeFilter) → Bool
  | none => false
  | some fs => fs.length != 0

/-- The attribute branch (lines 224-241): for each `attributeChanged`
listener, either one invocation per passing filter, or one unconditional
invocation when the filter set is empty or undefined; payload
`{name: attributeName, oldValue}`. -/
def attrInvocations (filters : Option (List NodeFilter)) (ls : List Nat)
    (m : MutationRecord) : List Invocation :=
  ls.flatMap fun l =>
    if filtersNonempty filters then
      (filters.getD []).flatMap fun f =>
        if f m.target then
          [{ event := .attributeChanged, listener := l, node := m.target,
             data := some (.attr m.attributeName m.oldValue) }]
        else []
    else
      [{ event := .attributeChanged, listener := l, node := m.target,
         data := some (.attr m.attributeName m.oldValue) }]

/-- The character-data branch (lines 242-257): same fan-out shape, payload
`{oldValue}`. -/
def charDataInvocations (filters : Option (List NodeFilter)) (ls : List Nat)
    (m : MutationRecord) : List Invocation :=
  ls.flatMap fun l =>
    if filtersNonempty filters then
      (filters.getD []).flatMap fun f =>
        if f m.target then
          [{ event := .characterDataChanged, listener := l, node := m.target,
             data := some (.charData m.oldValue) }]
        else []
    else
      [{ event := .characterDataChanged, listener := l, node := m.target,
         data := some (.charData m.oldValue) }]

/-- The per-node fan-out of the child-list branch: for one node of the
added/removed list, either (for each passing filter, every listener once) or
(every listener once) when the filter set is empty or undefined; the node is
the only argument. -/
def nodeInvocations (filters : Option (List NodeFilter)) (ls : List Nat)
    (ev : TokanMutationEvent) (nodes : List Node) : List Invocation :=
  nodes.flatMap fun n =>
    if filtersNonempty filters then
      (filters.getD []).flatMap fun f =>
        if f n then
          ls.map fun l => { event := ev, listener := l, node := n, data := none }
        else []
    else
      ls.map fun l => { event := ev, listener := l, node := n, data := none }

/-- The child-list branch (lines 258-294), including the redundant
`length > 0` guards of the source. -/
def childListInvocations (filters : Option (List NodeFilter)) (L : Listeners)
    (m : MutationRecord) : List Invocation :=
  (if m.addedNodes.length > 0 then
    nodeInvocations filters L.added .added m.addedNodes
  else []) ++
  (if m.removedNodes.length > 0 then
    nodeInvocations filters L.removed .removed m.removedNodes
  else [])

/-- Routing of one raw record: the `if`/`else if` chain on `mutation.type`. -/
def routeRecord (filters : Option (List NodeFilter)) (L : Listeners)
    (m : MutationRecord) : List Invocation :=
  match m.type with
  | .attributes => attrInvocations filters L.attributeChanged m
  | .characterData => charDataInvocations filters L.characterDataChanged m
  | .childList => childListInvocations filters L m

/-- `Tokan.observerRouter` restricted to its dispatch loop: it processes the
delivered batch record by record with the originating watcher's filter set
(the closing `takeRecords()` flush performs no invocation). -/
def observerRouter (filters : Option (List NodeFilter)) (L : Listeners) :
    List MutationRecord → List Invocation
  | [] => []
  | m :: rest => routeRecord filters L m ++ observerRouter filters L rest

/-! Sequences of public API calls on one instance.  A call that throws is
caught by the caller (the instance survives with the state the method left
behind), and the caller goes on issuing calls. -/

/-- One public API call. -/
inductive TokanOp where
  | watchOp : String → Option TokanMutationKindOptions → TokanOp
  | unwatchOp : Option Nat → TokanOp
  | startOp : Option Nat → TokanOp
  | stopOp : Option Nat → TokanOp
  | onOp : String → Nat → TokanOp

/-- Runs one call; the second component is the id returned by a successful
`watch`, `none` for every other call. -/
def runOp : TokanOp → TokanState → TokanState × Option Nat
  | .watchOp k o, s =>
    let r := watch k o s
    (r.2, r.1.toOption)
  | .unwatchOp i, s => ((unwatch i s).2, none)
  | .startOp i, s => (start i s, none)
  | .stopOp i, s => (stop i s, none)
  | .onOp e cb, s =>
    match onEvent e cb s with
    | .ok s2 => (s2, none)
    | .error _ => (s, none)

/-- Runs a sequence of calls, collecting the ids returned by the successful
`watch` calls, in call order. -/
def runOps : List TokanOp → TokanState → TokanState × List Nat
  | [], s => (s, [])
  | op :: rest, s =>
    let r := runOp op s
    let r2 := runOps rest r.1
    (r2.1, r.2.toList ++ r2.2)

/-- The observable registry key of a descriptor: its id and started flag. -/
def descKey (o : TokanObserverDescriptor) : Nat × Bool := (o.id, o.started)

/-- The per-node fan-out factor of the dispatcher: the number of invocations
each listener receives for one affected node — one per filter predicate
accepting the node when the filter set is non-empty, one unconditionally when
the filter set is empty or undefined. -/
def fanout (F : Option (List NodeFilter)) (n : Node) : Nat :=
  if filtersNonempty F then (F.getD []).countP fun f => f n else 1

/-! Concrete states used by witnesses and by bug evaluations. -/

/-- One registered, unstarted watcher (id 1). -/
def stateOne : TokanState := (watch kindNodes none TokanInit).2

/-- Two registered, unstarted watchers (ids 1 and 2). -/
def stateTwo : TokanState := (watch kindNodes none stateOne).2

/-- Watcher 1 started, watcher 2 not. -/
def stateMix : TokanState := start (some 1) stateTwo

/-! Helper lemmas. -/

/-- A throwing `watch` call is a pure error: the rolled-back state is the
original one. -/
theorem watch_error_eq (k : String) (opts : Option TokanMutationKindOptions)
    (s : TokanState) (h1 : k ≠ kindAttr) (h2 : k ≠ kindCharData)
    (h3 : k ≠ kindNodes) :
    watch k opts s =
      (Except.error ("Expected a TokanMutationKind value but got " ++ k), s) := by
  unfold watch
  rw [if_neg h1, if_neg h2, if_neg h3]
  cases s with
  | mk oid obs ls => simp

/-- When the head-only loop of `unwatch` with an id reports failure, it has
not touched the registry. -/
theorem unwatchIdLoop_false (i : Nat) (l : List TokanObserverDescriptor)
    (h : (unwatchIdLoop i l).1 = false) : (unwatchIdLoop i l).2 = l := by
  cases l with
  | nil => rfl
  | cons o rest =>
    simp only [unwatchIdLoop] at h ⊢
    by_cases hc : (o.id == i && !o.started) = true
    · rw [if_pos hc] at h; cases h
    · rw [if_neg hc]

/-- The no-id `unwatch` loop fails exactly when a started descriptor remains
in the part of the registry it has not yet cleared. -/
theorem unwatchAllLoop_false_iff (todo : List TokanObserverDescriptor) :
    ∀ done, (unwatchAllLoop done todo).1 = false ↔ ∃ o ∈ todo, o.started = true := by
  induction todo with
  | nil => intro done; simp [unwatchAllLoop]
  | cons o rest ih =>
    intro done
    unfold unwatchAllLoop
    cases hs : o.started with
    | true => simp [hs]
    | false => simp [hs, ih]

/-- On failure, the no-id `unwatch` loop leaves ids and started flags of the
whole registry unchanged (prefix descriptors are merely disconnected). -/
theorem unwatchAllLoop_false_key (todo : List TokanObserverDescriptor) :
    ∀ done, (unwatchAllLoop done todo).1 = false →
      (unwatchAllLoop done todo).2.map descKey = (done ++ todo).map descKey := by
  induction todo with
  | nil => intro done h; cases h
  | cons o rest ih =>
    intro done h
    unfold unwatchAllLoop at h ⊢
    cases hs : o.started with
    | true => simp [hs]
    | false =>
      rw [hs] at h
      simp only [Bool.false_eq_true, if_false] at h ⊢
      rw [ih _ h]
      simp [descKey, disconnectD]

/-- On success, the no-id `unwatch` loop clears the registry. -/
theorem unwatchAllLoop_true_val (todo : List TokanObserverDescriptor) :
    ∀ done, (unwatchAllLoop done todo).1 = true →
      (unwatchAllLoop done todo).2 = [] := by
  induction todo with
  | nil => intro done _; rfl
  | cons o rest ih =>
    intro done h
    unfold unwatchAllLoop at h ⊢
    cases hs : o.started with
    | true => rw [hs] at h; cases h
    | false =>
      rw [hs] at h
      simp only [Bool.false_eq_true, if_false] at h ⊢
      exact ih _ h

/-- C6: `watch` with an unrecognised kind throws `UnsupportedKindError`
synchronously and leaves the whole state — id counter and registry — exactly
as before the call (the pre-incremented counter is rolled back, no descriptor
is added). -/
theorem tokan_C6 (k : String) (opts : Option TokanMutationKindOptions)
    (s : TokanState) (h1 : k ≠ kindAttr) (h2 : k ≠ kindCharData)
    (h3 : k ≠ kindNodes) :
    (watch k opts s).1 =
      Except.error ("Expected a TokanMutationKind value but got " ++ k)
    ∧ (watch k opts s).2 = s := by
  rw [watch_error_eq k opts s h1 h2 h3]
  exact ⟨rfl, rfl⟩

/-- Witness for C6 at the concrete kind `"bogus"` and a concrete state. -/
theorem tokan_C6_witness :
    ("bogus" ≠ kindAttr ∧ "bogus" ≠ kindCharData ∧ "bogus" ≠ kindNodes)
    ∧ (watch "bogus" none stateTwo).1 =
        Except.error ("Expected a TokanMutationKind value but got " ++ "bogus")
    ∧ (watch "bogus" none stateTwo).2 = stateTwo :=
  ⟨⟨by decide, by decide, by decide⟩,
    tokan_C6 "bogus" none stateTwo (by decide) (by decide) (by decide)⟩

/-- C9: whenever `unwatch` returns `false` — with or without an id, from any
state — the registry membership and every descriptor's started flag are
unchanged (only subscriptions of already-iterated unstarted descriptors may
have been disconnected). -/
theorem tokan_C9 (id : Option Nat) (s : TokanState)
    (h : (unwatch id s).1 = false) :
    (unwatch id s).2.observers.map descKey = s.observers.map descKey := by
  unfold unwatch at h ⊢
  split at h
  · rw [if_pos (by assumption)]
    show (unwatchIdLoop (id.getD 0) s.observers).2.map descKey = _
    rw [unwatchIdLoop_false _ _ h]
  · rw [if_neg (by assumption)]
    show (unwatchAllLoop [] s.observers).2.map descKey = _
    rw [unwatchAllLoop_false_key _ _ h]
    rfl

/-- Witness for C9: `unwatch 5` on a registry holding ids 1 and 2 fails and
changes nothing. -/
theorem tokan_C9_witness :
    (unwatch (some 5) stateTwo).1 = false
    ∧ (unwatch (some 5) stateTwo).2.observers.map descKey =
        stateTwo.observers.map descKey :=
  ⟨by decide, tokan_C9 (some 5) stateTwo (by decide)⟩

/-- C5: the no-id `unwatch` fails exactly when some registered descriptor is
started, in which case registry membership and all started flags are
untouched; when no descriptor is started it clears the whole registry and
succeeds. -/
theorem tokan_C5 (s : TokanState) :
    ((unwatch none s).1 = false ↔ ∃ o ∈ s.observers, o.started = true)
    ∧ ((unwatch none s).1 = false →
        (unwatch none s).2.observers.map descKey = s.observers.map descKey)
    ∧ ((unwatch none s).1 = true → (unwatch none s).2.observers = []) := by
  refine ⟨?_, ?_, ?_⟩
  · show (unwatchAllLoop [] s.observers).1 = false ↔ _
    exact unwatchAllLoop_false_iff s.observers []
  · intro h
    show (unwatchAllLoop [] s.observers).2.map descKey = _
    rw [unwatchAllLoop_false_key _ _ h]
    rfl
  · intro h
    show (unwatchAllLoop [] s.observers).2 = []
    exact unwatchAllLoop_true_val _ _ h

/-- Witness for C5: with watcher 1 started and watcher 2 not, `unwatch()`
fails leaving both descriptors with their flags; with both unstarted it
clears the registry and succeeds. -/
theorem tokan_C5_witness :
    ((unwatch none stateMix).1 = false
      ∧ (unwatch none stateMix).2.observers.map descKey =
          stateMix.observers.map descKey)
    ∧ ((unwatch none stateTwo).1 = true
      ∧ (unwatch none stateTwo).2.observers = []) :=
  ⟨⟨by decide, (tokan_C5 stateMix).2.1 (by decide)⟩,
    ⟨by decide, (tokan_C5 stateTwo).2.2 (by decide)⟩⟩

/-! Lemmas about id assignment and id preservation, for C7 and C10. -/

/-- `watch` either leaves the registry alone (unsupported kind) or appends
one fresh descriptor carrying the incremented id. -/
theorem watch_observers_cases (k : String) (opts : Option TokanMutationKindOptions)
    (s : TokanState) :
    (watch k opts s).2.observers = s.observers
    ∨ ∃ d, (watch k opts s).2.observers = s.observers ++ [d]
        ∧ d.id = s.observerId + 1 := by
  unfold watch
  by_cases h1 : k = kindAttr
  · rw [if_pos h1]; right; exact ⟨_, rfl, rfl⟩
  · rw [if_neg h1]
    by_cases h2 : k = kindCharData
    · rw [if_pos h2]; right; exact ⟨_, rfl, rfl⟩
    · rw [if_neg h2]
      by_cases h3 : k = kindNodes
      · rw [if_pos h3]; right; exact ⟨_, rfl, rfl⟩
      · rw [if_neg h3]; left; rfl

/-- `watch` either succeeds with the incremented id (also recorded in the
counter) or reports no id and leaves the counter where it was. -/
theorem watch_counter_cases (k : String) (opts : Option TokanMutationKindOptions)
    (s : TokanState) :
    ((watch k opts s).1 = Except.ok (s.observerId + 1)
      ∧ (watch k opts s).2.observerId = s.observerId + 1)
    ∨ ((watch k opts s).1.toOption = none
      ∧ (watch k opts s).2.observerId = s.observerId) := by
  unfold watch
  by_cases h1 : k = kindAttr
  · rw [if_pos h1]; left; exact ⟨rfl, rfl⟩
  · rw [if_neg h1]
    by_cases h2 : k = kindCharData
    · rw [if_pos h2]; left; exact ⟨rfl, rfl⟩
    · rw [if_neg h2]
      by_cases h3 : k = kindNodes
      · rw [if_pos h3]; left; exact ⟨rfl, rfl⟩
      · rw [if_neg h3]; right
        exact ⟨rfl, by simp⟩

/-- `unwatch` never touches the id counter. -/
theorem unwatch_observerId (i : Option Nat) (s : TokanState) :
    (unwatch i s).2.observerId = s.observerId := by
  unfold unwatch; split <;> rfl

/-- `start` never touches the id counter. -/
theorem start_observerId (i : Option Nat) (s : TokanState) :
    (start i s).observerId = s.observerId := by
  unfold start; split <;> rfl

/-- `stop` never touches the id counter. -/
theorem stop_observerId (i : Option Nat) (s : TokanState) :
    (stop i s).observerId = s.observerId := by
  unfold stop; split <;> rfl

/-- A successful `on` only touches the listener table. -/
theorem onEvent_ok_state (e : String) (cb : Nat) (s s2 : TokanState)
    (h : onEvent e cb s = Except.ok s2) :
    s2.observers = s.observers ∧ s2.observerId = s.observerId := by
  unfold onEvent at h
  split_ifs at h <;> cases h <;> exact ⟨rfl, rfl⟩

/-- The id-directed `start` loop rewrites started flags only: the sequence of
ids is untouched. -/
theorem startIdLoop_map_id (i : Nat) (l : List TokanObserverDescriptor) :
    (startIdLoop i l).map TokanObserverDescriptor.id =
      l.map TokanObserverDescriptor.id := by
  induction l with
  | nil => rfl
  | cons o rest ih =>
    simp only [startIdLoop]
    by_cases hc : (o.id == i && !o.started) = true
    · rw [if_pos hc]; simp [startD, ih]
    · rw [if_neg hc]

/-- Same for the start-all loop. -/
theorem startAllLoop_map_id (l : List TokanObserverDescriptor) :
    (startAllLoop l).map TokanObserverDescriptor.id =
      l.map TokanObserverDescriptor.id := by
  induction l with
  | nil => rfl
  | cons o rest ih =>
    simp only [startAllLoop, List.map_cons, ih]
    by_cases hc : (!o.started) = true
    · rw [if_pos hc]; rfl
    · rw [if_neg hc]

/-- Same for the id-directed `stop` loop. -/
theorem stopIdLoop_map_id (i : Nat) (l : List TokanObserverDescriptor) :
    (stopIdLoop i l).map TokanObserverDescriptor.id =
      l.map TokanObserverDescriptor.id := by
  induction l with
  | nil => rfl
  | cons o rest ih =>
    simp only [stopIdLoop]
    by_cases hc : (o.id == i && o.started) = true
    · rw [if_pos hc]; simp [stopD, ih]
    · rw [if_neg hc]

/-- Same for the stop-all loop. -/
theorem stopAllLoop_map_id (l : List TokanObserverDescriptor) :
    (stopAllLoop l).map TokanObserverDescriptor.id =
      l.map TokanObserverDescriptor.id := by
  induction l with
  | nil => rfl
  | cons o rest ih =>
    simp only [stopAllLoop, List.map_cons, ih]
    by_cases hc : o.started = true
    · rw [if_pos hc]; rfl
    · rw [if_neg hc]

/-- Transfers a lower bound on all ids along an id-sequence equality. -/
theorem idsBound_of_map_id_eq {l1 l2 : List TokanObserverDescriptor}
    (hmap : l1.map TokanObserverDescriptor.id = l2.map TokanObserverDescriptor.id)
    (h : ∀ o ∈ l2, 1 ≤ o.id) : ∀ o ∈ l1, 1 ≤ o.id := by
  intro o ho
  have hmem : o.id ∈ l2.map TokanObserverDescriptor.id := by
    rw [← hmap]; exact List.mem_map_of_mem _ ho
  rw [List.mem_map] at hmem
  obtain ⟨o2, ho2, he⟩ := hmem
  rw [← he]; exact h o2 ho2

/-- The id-directed `unwatch` loop keeps a sublist of the registry. -/
theorem unwatchIdLoop_ids (i : Nat) (l : List TokanObserverDescriptor)
    (h : ∀ o ∈ l, 1 ≤ o.id) : ∀ o ∈ (unwatchIdLoop i l).2, 1 ≤ o.id := by
  cases l with
  | nil => intro o ho; cases ho
  | cons a rest =>
    simp only [unwatchIdLoop]
    by_cases hc : (a.id == i && !a.started) = true
    · rw [if_pos hc]
      intro o ho; exact h o (List.mem_cons_of_mem _ ho)
    · rw [if_neg hc]; exact h

/-- The no-id `unwatch` loop keeps only descriptors whose id it saw. -/
theorem unwatchAllLoop_ids (todo : List TokanObserverDescriptor) :
    ∀ done, (∀ o ∈ done ++ todo, 1 ≤ o.id) →
      ∀ o ∈ (unwatchAllLoop done todo).2, 1 ≤ o.id := by
  induction todo with
  | nil => intro done _ o ho; cases ho
  | cons a rest ih =>
    intro done h
    simp only [unwatchAllLoop]
    cases hs : a.started with
    | true => simpa using h
    | false =>
      simp only [Bool.false_eq_true, if_false]
      apply ih
      intro o ho
      rcases List.mem_append.mp ho with ho | ho
      · rcases List.mem_append.mp ho with ho | ho
        · exact h o (List.mem_append.mpr (Or.inl ho))
        · rw [List.mem_singleton] at ho; subst ho
          exact h a (List.mem_append.mpr (Or.inr (List.mem_cons_self a rest)))
      · exact h o (List.mem_append.mpr (Or.inr (List.mem_cons_of_mem _ ho)))

/-- Every public call keeps the invariant that every registered id is at
least 1. -/
theorem runOp_ids (op : TokanOp) (s : TokanState)
    (h : ∀ o ∈ s.observers, 1 ≤ o.id) :
    ∀ o ∈ (runOp op s).1.observers, 1 ≤ o.id := by
  cases op with
  | watchOp k opts =>
    show ∀ o ∈ (watch k opts s).2.observers, 1 ≤ o.id
    rcases watch_observers_cases k opts s with hc | ⟨d, hc, hd⟩
    · rw [hc]; exact h
    · rw [hc]
      intro o ho
      rcases List.mem_append.mp ho with ho | ho
      · exact h o ho
      · rw [List.mem_singleton] at ho; subst ho
        rw [hd]; exact Nat.succ_le_succ (Nat.zero_le _)
  | unwatchOp i =>
    show ∀ o ∈ (unwatch i s).2.observers, 1 ≤ o.id
    unfold unwatch
    split
    · exact unwatchIdLoop_ids _ _ h
    · exact unwatchAllLoop_ids s.observers [] h
  | startOp i =>
    show ∀ o ∈ (start i s).observers, 1 ≤ o.id
    unfold start
    split
    · exact idsBound_of_map_id_eq (startIdLoop_map_id _ _) h
    · exact idsBound_of_map_id_eq (startAllLoop_map_id _) h
  | stopOp i =>
    show ∀ o ∈ (stop i s).observers, 1 ≤ o.id
    unfold stop
    split
    · exact idsBound_of_map_id_eq (stopIdLoop_map_id _ _) h
    · exact idsBound_of_map_id_eq (stopAllLoop_map_id _) h
  | onOp e cb =>
    show ∀ o ∈ (runOp (.onOp e cb) s).1.observers, 1 ≤ o.id
    cases honev : onEvent e cb s with
    | ok s2 =>
      simp only [runOp, honev]
      rw [(onEvent_ok_state e cb s s2 honev).1]; exact h
    | error msg =>
      simp only [runOp, honev]; exact h

/-- The registered-ids invariant holds along every call sequence. -/
theorem runOps_ids (ops : List TokanOp) :
    ∀ s, (∀ o ∈ s.observers, 1 ≤ o.id) →
      ∀ o ∈ (runOps ops s).1.observers, 1 ≤ o.id := by
  induction ops with
  | nil => intro s h; exact h
  | cons op rest ih =>
    intro s h
    exact ih (runOp op s).1 (runOp_ids op s h)

/-- C10: `start 0`, `stop 0` and `unwatch 0` are the very same operations as
their no-argument forms (0 is falsy, hence treated as an absent id), and in
every state reachable from a fresh instance all registered ids are at least
1, so 0 never names a descriptor. -/
theorem tokan_C10 :
    (∀ s, start (some 0) s = start none s)
    ∧ (∀ s, stop (some 0) s = stop none s)
    ∧ (∀ s, unwatch (some 0) s = unwatch none s)
    ∧ (∀ ops, ∀ o ∈ (runOps ops TokanInit).1.observers, 1 ≤ o.id) :=
  ⟨fun _ => rfl, fun _ => rfl, fun _ => rfl,
    fun ops => runOps_ids ops TokanInit (fun o ho => absurd ho (List.not_mem_nil o))⟩

/-- Witness for C10: the equalities at a concrete state, and the id bound at
the concrete one-call sequence. -/
theorem tokan_C10_witness :
    start (some 0) stateTwo = start none stateTwo
    ∧ stop (some 0) stateTwo = stop none stateTwo
    ∧ unwatch (some 0) stateTwo = unwatch none stateTwo
    ∧ ∃ o ∈ (runOps [TokanOp.watchOp kindNodes none] TokanInit).1.observers,
        1 ≤ o.id := by
  obtain ⟨o, rest, hobs⟩ :
      ∃ o rest, (runOps [TokanOp.watchOp kindNodes none] TokanInit).1.observers
        = o :: rest := ⟨_, _, rfl⟩
  refine ⟨tokan_C10.1 stateTwo, tokan_C10.2.1 stateTwo, tokan_C10.2.2.1 stateTwo,
    o, ?_, ?_⟩
  · rw [hobs]; exact List.mem_cons_self o rest
  · exact tokan_C10.2.2.2 [TokanOp.watchOp kindNodes none] o
      (by rw [hobs]; exact List.mem_cons_self o rest)

/-- One call never decreases the id counter, and when it reports an id (a
successful `watch`), that id is the incremented counter value, which the
post-state carries. -/
theorem runOp_counter (op : TokanOp) (s : TokanState) :
    s.observerId ≤ (runOp op s).1.observerId
    ∧ ∀ i, (runOp op s).2 = some i →
        i = s.observerId + 1 ∧ (runOp op s).1.observerId = s.observerId + 1 := by
  cases op with
  | watchOp k opts =>
    rcases watch_counter_cases k opts s with ⟨hok, hst⟩ | ⟨hnone, hst⟩
    · constructor
      · show s.observerId ≤ (watch k opts s).2.observerId
        rw [hst]; exact Nat.le_succ _
      · intro i hi
        have : (watch k opts s).1.toOption = some i := hi
        rw [hok] at this
        cases this
        exact ⟨rfl, hst⟩
    · constructor
      · show s.observerId ≤ (watch k opts s).2.observerId
        rw [hst]
      · intro i hi
        have : (watch k opts s).1.toOption = some i := hi
        rw [hnone] at this
        cases this
  | unwatchOp i =>
    refine ⟨?_, fun j hj => by cases hj⟩
    show s.observerId ≤ (unwatch i s).2.observerId
    rw [unwatch_observerId]
  | startOp i =>
    refine ⟨?_, fun j hj => by cases hj⟩
    show s.observerId ≤ (start i s).observerId
    rw [start_observerId]
  | stopOp i =>
    refine ⟨?_, fun j hj => by cases hj⟩
    show s.observerId ≤ (stop i s).observerId
    rw [stop_observerId]
  | onOp e cb =>
    cases honev : onEvent e cb s with
    | ok s2 =>
      refine ⟨?_, fun j hj => by simp [runOp, honev] at hj⟩
      simp only [runOp, honev]
      rw [(onEvent_ok_state e cb s s2 honev).2]
    | error msg =>
      exact ⟨by simp [runOp, honev], fun j hj => by simp [runOp, honev] at hj⟩

/-- Along any call sequence, the successful `watch` ids are strictly above
the starting counter, below or at the final counter, pairwise increasing in
call order; and the counter never decreases. -/
theorem runOps_counter (ops : List TokanOp) :
    ∀ s, (∀ i ∈ (runOps ops s).2,
            s.observerId < i ∧ i ≤ (runOps ops s).1.observerId)
      ∧ (runOps ops s).2.Pairwise (· < ·)
      ∧ s.observerId ≤ (runOps ops s).1.observerId := by
  induction ops with
  | nil =>
    intro s
    exact ⟨fun i hi => absurd hi (List.not_mem_nil i), List.Pairwise.nil,
      Nat.le_refl _⟩
  | cons op rest ih =>
    intro s
    obtain ⟨hop_le, hop_some⟩ := runOp_counter op s
    obtain ⟨ih_mem, ih_pw, ih_le⟩ := ih (runOp op s).1
    simp only [runOps]
    refine ⟨?_, ?_, Nat.le_trans hop_le ih_le⟩
    · intro i hi
      rcases List.mem_append.mp hi with hi | hi
      · rw [Option.mem_toList, Option.mem_def] at hi
        obtain ⟨hieq, hfin⟩ := hop_some i hi
        refine ⟨by rw [hieq]; exact Nat.lt_succ_of_le (Nat.le_refl _), ?_⟩
        calc i = (runOp op s).1.observerId := by rw [hfin, hieq]
          _ ≤ (runOps rest (runOp op s).1).1.observerId := ih_le
      · obtain ⟨h1, h2⟩ := ih_mem i hi
        exact ⟨Nat.lt_of_le_of_lt hop_le h1, h2⟩
    · rw [List.pairwise_append]
      refine ⟨?_, ih_pw, ?_⟩
      · cases hr : (runOp op s).2 <;> simp
      · intro a ha b hb
        rw [Option.mem_toList, Option.mem_def] at ha
        obtain ⟨haeq, hafin⟩ := hop_some a ha
        have hab : a ≤ (runOp op s).1.observerId := by rw [hafin, haeq]
        exact Nat.lt_of_le_of_lt hab (ih_mem b hb).1

/-- C7: over any call sequence on one fresh instance, the ids returned by
successful `watch` calls are positive, strictly increasing in call order, and
never repeated — also across removals by `unwatch`. -/
theorem tokan_C7 (ops : List TokanOp) :
    (runOps ops TokanInit).2.Pairwise (· < ·)
    ∧ (∀ i ∈ (runOps ops TokanInit).2, 0 < i)
    ∧ (runOps ops TokanInit).2.Nodup := by
  obtain ⟨hmem, hpw, _⟩ := runOps_counter ops TokanInit
  exact ⟨hpw, fun i hi => (hmem i hi).1,
    hpw.imp fun {a b} h => Nat.ne_of_lt h⟩

/-- Witness for C7: a concrete sequence with a failed call and a removal in
the middle still returns the strictly increasing ids 1, 2, 3. -/
theorem tokan_C7_witness :
    (runOps [TokanOp.watchOp kindNodes none, TokanOp.watchOp "bogus" none,
      TokanOp.watchOp kindAttr none, TokanOp.unwatchOp (some 1),
      TokanOp.watchOp kindCharData none] TokanInit).2 = [1, 2, 3]
    ∧ 0 < 1 :=
  ⟨rfl, (tokan_C7 [TokanOp.watchOp kindNodes none, TokanOp.watchOp "bogus" none,
      TokanOp.watchOp kindAttr none, TokanOp.unwatchOp (some 1),
      TokanOp.watchOp kindCharData none]).2.1 1 (by decide)⟩

/-! Lemmas about the dispatcher's per-filter fan-out, for C1 and C8. -/

/-- A filter-guarded emission is the emitted block repeated once per
accepting filter. -/
theorem flatMap_if_replicate (fs : List NodeFilter) (n : Node)
    (xs : List Invocation) :
    (fs.flatMap fun f => if f n then xs else []) =
      (List.replicate (fs.countP fun f => f n) xs).flatten := by
  induction fs with
  | nil => rfl
  | cons f rest ih =>
    cases hf : f n with
    | true =>
      simp [List.flatMap_cons, List.countP_cons, hf, ih, List.replicate_succ]
    | false => simp [List.flatMap_cons, List.countP_cons, hf, ih]

/-- Flattening replicated singletons is replication. -/
theorem flatten_replicate_singleton (k : Nat) (v : Invocation) :
    (List.replicate k [v]).flatten = List.replicate k v := by
  induction k with
  | zero => rfl
  | succ k ih => simp [List.replicate_succ, ih]

/-- The common emission pattern of all router branches, as a replication by
the fan-out factor. -/
theorem filterFanList (F : Option (List NodeFilter)) (n : Node)
    (xs : List Invocation) :
    (if filtersNonempty F then
        (F.getD []).flatMap fun f => if f n then xs else []
      else xs)
      = (List.replicate (fanout F n) xs).flatten := by
  unfold fanout
  by_cases h : filtersNonempty F = true
  · rw [if_pos h, if_pos h, flatMap_if_replicate]
  · rw [if_neg h, if_neg h]
    simp

/-- Counting inside a replicated flattening. -/
theorem count_flatten_replicate (k : Nat) (xs : List Invocation)
    (v : Invocation) :
    ((List.replicate k xs).flatten).count v = k * xs.count v := by
  induction k with
  | zero => simp
  | succ k ih =>
    rw [List.replicate_succ, List.flatten_cons, List.count_append, ih,
      Nat.succ_mul, Nat.add_comm]

/-- Counting one listener's invocation across a listener sweep. -/
theorem count_map_mk (L : List Nat) (mk : Nat → Invocation) (v : Invocation)
    (l0 : Nat) (hv : mk l0 = v) (hinj : ∀ l, mk l = v → l = l0) :
    (L.map mk).count v = L.count l0 := by
  induction L with
  | nil => rfl
  | cons a rest ih =>
    rw [List.map_cons, List.count_cons, List.count_cons, ih]
    congr 1
    by_cases ha : a = l0
    · subst ha; rw [hv]; simp
    · have hne : mk a ≠ v := fun hc => ha (hinj a hc)
      simp [hne, ha]

/-- A listener sweep for a foreign node or event contributes nothing. -/
theorem count_map_zero (L : List Nat) (mk : Nat → Invocation) (v : Invocation)
    (h : ∀ l, mk l ≠ v) : (L.map mk).count v = 0 := by
  rw [List.count_eq_zero]
  intro hv
  rw [List.mem_map] at hv
  obtain ⟨a, _, ha⟩ := hv
  exact h a ha

/-- Counting across a flatMap whose blocks hit the target only at one key. -/
theorem count_flatMap_pt {α : Type} [DecidableEq α] (l : List α)
    (g : α → List Invocation) (v : Invocation) (n0 : α) (c : Nat)
    (h : ∀ n, (g n).count v = if n = n0 then c else 0) :
    (l.flatMap g).count v = l.count n0 * c := by
  induction l with
  | nil => simp
  | cons a rest ih =>
    rw [List.flatMap_cons, List.count_append, ih, h a, List.count_cons]
    by_cases ha : a = n0
    · subst ha; simp [Nat.add_mul, Nat.add_comm]
    · simp [ha]

/-- Counting a fixed listener invocation across flatMapped replicates. -/
theorem count_flatMap_replicate (L : List Nat) (k : Nat)
    (mk : Nat → Invocation) (v : Invocation) (l0 : Nat) (hv : mk l0 = v)
    (hinj : ∀ l, mk l = v → l = l0) :
    (L.flatMap fun l2 => List.replicate k (mk l2)).count v = L.count l0 * k := by
  apply count_flatMap_pt
  intro l2
  rw [List.count_replicate]
  by_cases hl : l2 = l0
  · subst hl; rw [hv]; simp
  · have hne : mk l2 ≠ v := fun hc => hl (hinj l2 hc)
    simp [hne, hl]

/-- The attribute branch, characterised: each `attributeChanged` listener, in
registration order, gets its invocation — always with the record's target and
the `{name, oldValue}` payload — replicated `fanout` times. -/
theorem attrInvocations_char (F : Option (List NodeFilter)) (ls : List Nat)
    (m : MutationRecord) :
    attrInvocations F ls m =
      ls.flatMap fun l =>
        List.replicate (fanout F m.target)
          { event := .attributeChanged, listener := l, node := m.target,
            data := some (.attr m.attributeName m.oldValue) } := by
  unfold attrInvocations
  congr 1
  funext l
  rw [← flatten_replicate_singleton (fanout F m.target)]
  exact filterFanList F m.target _

/-- The per-node child-list fan-out, characterised: for each node, in list
order, the whole listener sweep is replicated `fanout` times. -/
theorem nodeInvocations_char (F : Option (List NodeFilter)) (ls : List Nat)
    (ev : TokanMutationEvent) (nodes : List Node) :
    nodeInvocations F ls ev nodes =
      nodes.flatMap fun n =>
        (List.replicate (fanout F n)
          (ls.map fun l =>
            { event := ev, listener := l, node := n, data := none })).flatten := by
  unfold nodeInvocations
  congr 1
  funext n
  exact filterFanList F n _

/-- The `length > 0` guards in the child-list branch are redundant. -/
theorem nodeInvocations_guard (F : Option (List NodeFilter)) (ls : List Nat)
    (ev : TokanMutationEvent) (nodes : List Node) :
    (if nodes.length > 0 then nodeInvocations F ls ev nodes else []) =
      nodeInvocations F ls ev nodes := by
  cases nodes with
  | nil => simp [nodeInvocations]
  | cons n rest => rw [if_pos (by simp)]

/-- C1: for an attribute-discriminant record, each `attributeChanged`
listener is invoked exactly `fanout` times — once per filter predicate
accepting the record's target when the originating watcher's filter set is
non-empty, once unconditionally when it is empty — always with the target
node and the `{name: attributeName, oldValue}` payload; no other invocation
is produced. -/
theorem tokan_C1 (fs : List NodeFilter) (L : Listeners) (t : Node)
    (an ov : Option String) (adds rems : List Node) (l : Nat) :
    routeRecord (some fs) L
        { type := .attributes, target := t, attributeName := an,
          oldValue := ov, addedNodes := adds, removedNodes := rems } =
      (L.attributeChanged.flatMap fun l2 =>
        List.replicate (fanout (some fs) t)
          { event := .attributeChanged, listener := l2, node := t,
            data := some (.attr an ov) })
    ∧ (routeRecord (some fs) L
        { type := .attributes, target := t, attributeName := an,
          oldValue := ov, addedNodes := adds, removedNodes := rems }).count
        { event := .attributeChanged, listener := l, node := t,
          data := some (.attr an ov) } =
      L.attributeChanged.count l * fanout (some fs) t := by
  have hchar := attrInvocations_char (some fs) L.attributeChanged
    { type := .attributes, target := t, attributeName := an,
      oldValue := ov, addedNodes := adds, removedNodes := rems }
  refine ⟨hchar, ?_⟩
  show (attrInvocations (some fs) L.attributeChanged _).count _ = _
  rw [hchar]
  exact count_flatMap_replicate L.attributeChanged (fanout (some fs) t) _ _ l
    rfl (fun l2 h => congrArg Invocation.listener h)

/-- C8: for a child-list-discriminant record, every node of the added-nodes
list, in list order, is fanned out to the `added` listeners — the whole
listener sweep once per accepting filter, or once unconditionally without
filters — with the node as sole argument; symmetrically, removed nodes go to
the `removed` listeners; in particular each `added` listener fires
`fanout`-many times per added-node occurrence and never for removed nodes. -/
theorem tokan_C8 (F : Option (List NodeFilter)) (L : Listeners) (t : Node)
    (an ov : Option String) (adds rems : List Node) (n0 : Node) (l0 : Nat) :
    routeRecord F L
        { type := .childList, target := t, attributeName := an,
          oldValue := ov, addedNodes := adds, removedNodes := rems } =
      (adds.flatMap fun n =>
        (List.replicate (fanout F n)
          (L.added.map fun l =>
            { event := .added, listener := l, node := n, data := none })).flatten)
      ++ (rems.flatMap fun n =>
        (List.replicate (fanout F n)
          (L.removed.map fun l =>
            { event := .removed, listener := l, node := n,
              data := none })).flatten)
    ∧ (routeRecord F L
        { type := .childList, target := t, attributeName := an,
          oldValue := ov, addedNodes := adds, removedNodes := rems }).count
        { event := .added, listener := l0, node := n0, data := none } =
      adds.count n0 * (L.added.count l0 * fanout F n0)
    ∧ (routeRecord F L
        { type := .childList, target := t, attributeName := an,
          oldValue := ov, addedNodes := adds, removedNodes := rems }).count
        { event := .removed, listener := l0, node := n0, data := none } =
      rems.count n0 * (L.removed.count l0 * fanout F n0) := by
  have hchar : routeRecord F L
      { type := .childList, target := t, attributeName := an,
        oldValue := ov, addedNodes := adds, removedNodes := rems } =
      (adds.flatMap fun n =>
        (List.replicate (fanout F n)
          (L.added.map fun l =>
            { event := .added, listener := l, node := n, data := none })).flatten)
      ++ (rems.flatMap fun n =>
        (List.replicate (fanout F n)
          (L.removed.map fun l =>
            { event := .removed, listener := l, node := n,
              data := none })).flatten) := by
    show childListInvocations F L _ = _
    unfold childListInvocations
    rw [nodeInvocations_guard, nodeInvocations_guard, nodeInvocations_char,
      nodeInvocations_char]
  have haddcnt : ∀ (ev1 ev2 : TokanMutationEvent) (ls : List Nat)
      (nodes : List Node), ev1 = ev2 →
      (nodes.flatMap fun n =>
        (List.replicate (fanout F n)
          (ls.map fun l =>
            { event := ev1, listener := l, node := n, data := none })).flatten).count
        ({ event := ev2, listener := l0, node := n0, data := none } : Invocation) =
      nodes.count n0 * (ls.count l0 * fanout F n0) := by
    intro ev1 ev2 ls nodes hev
    subst hev
    apply count_flatMap_pt
    intro n
    rw [count_flatten_replicate]
    by_cases hn : n = n0
    · subst hn
      rw [count_map_mk ls
        (fun l => { event := ev1, listener := l, node := n, data := none })
        { event := ev1, listener := l0, node := n, data := none } l0 rfl
        (fun l h => congrArg Invocation.listener h)]
      rw [if_pos rfl, Nat.mul_comm]
    · rw [count_map_zero ls
        (fun l => { event := ev1, listener := l, node := n, data := none })
        { event := ev1, listener := l0, node := n0, data := none }
        (fun l h => hn (congrArg Invocation.node h))]
      rw [if_neg hn, Nat.mul_zero]
  have hcross : ∀ (ev1 ev2 : TokanMutationEvent) (ls : List Nat)
      (nodes : List Node), ev1 ≠ ev2 →
      (nodes.flatMap fun n =>
        (List.replicate (fanout F n)
          (ls.map fun l =>
            { event := ev1, listener := l, node := n, data := none })).flatten).count
        ({ event := ev2, listener := l0, node := n0, data := none } : Invocation) = 0 := by
    intro ev1 ev2 ls nodes hev
    have h0 : (nodes.flatMap fun n =>
        (List.replicate (fanout F n)
          (ls.map fun l =>
            { event := ev1, listener := l, node := n, data := none })).flatten).count
        ({ event := ev2, listener := l0, node := n0, data := none } : Invocation) =
        nodes.count n0 * 0 := by
      apply count_flatMap_pt
      intro n
      rw [count_flatten_replicate]
      rw [count_map_zero ls
        (fun l => { event := ev1, listener := l, node := n, data := none })
        { event := ev2, listener := l0, node := n0, data := none }
        (fun l h => hev (congrArg Invocation.event h))]
      rw [Nat.mul_zero]
      simp
    rw [h0, Nat.mul_zero]
  refine ⟨hchar, ?_, ?_⟩
  · rw [hchar, List.count_append,
      haddcnt .added .added L.added adds rfl,
      hcross .removed .added L.removed rems (by simp), Nat.add_zero]
  · rw [hchar, List.count_append,
      hcross .added .removed L.added adds (by simp),
      haddcnt .removed .removed L.removed rems rfl, Nat.zero_add]

/-! Evaluations of the early-`break`/`return` scans of `start`, `unwatch` and
the round trip at concrete registry states.  In each case the registered
descriptor with id 2 exists and is unstarted, yet the operation addressed to
id 2 does nothing, because descriptor 1 sits in front of it in iteration
order and the scan stops at the first non-matching descriptor. -/

/-- C2 evaluation: with two unstarted watchers 1 and 2, `start 2` activates
nothing — descriptor 2 exists unstarted both before and after the call. -/
theorem tokan_C2_eval :
    stateTwo.observers.map descKey = [(1, false), (2, false)]
    ∧ (start (some 2) stateTwo).observers.map descKey =
        [(1, false), (2, false)] :=
  ⟨rfl, rfl⟩

/-- C3 evaluation: with two unstarted watchers 1 and 2, `unwatch 2` returns
`false` and removes nothing, although descriptor 2 exists and is unstarted. -/
theorem tokan_C3_eval :
    stateTwo.observers.map descKey = [(1, false), (2, false)]
    ∧ (unwatch (some 2) stateTwo).1 = false
    ∧ (unwatch (some 2) stateTwo).2.observers.map descKey =
        [(1, false), (2, false)] :=
  ⟨rfl, rfl, rfl⟩

/-- C4 evaluation: the `watch` → `start id` → `stop id` → `unwatch id` round
trip succeeds from an empty registry (and a second `unwatch id` then fails),
but from a state already holding one watcher the same round trip on the new
id 2 fails: `unwatch 2` returns `false` and both descriptors remain. -/
theorem tokan_C4_eval :
    ((watch kindNodes none TokanInit).1 = Except.ok 1
      ∧ (unwatch (some 1)
          (stop (some 1) (start (some 1) (watch kindNodes none TokanInit).2))).1
          = true
      ∧ (unwatch (some 1)
          (stop (some 1) (start (some 1) (watch kindNodes none TokanInit).2))).2.observers
          = []
      ∧ (unwatch (some 1)
          (unwatch (some 1)
            (stop (some 1) (start (some 1) (watch kindNodes none TokanInit).2))).2).1
          = false)
    ∧ ((watch kindAttr none stateOne).1 = Except.ok 2
      ∧ (unwatch (some 2)
          (stop (some 2) (start (some 2) (watch kindAttr none stateOne).2))).1
          = false
      ∧ (unwatch (some 2)
          (stop (some 2) (start (some 2) (watch kindAttr none stateOne).2))).2.observers.map
          descKey = [(1, false), (2, false)]) :=
  ⟨⟨rfl, rfl, rfl, rfl⟩, ⟨rfl, rfl, rfl⟩⟩

end Tokan
